import Mathlib

/-!
Verification development for the KinoWeek event-aggregation pipeline.

Python strings are embedded as `List Char` (sequences of code points, which is
exactly Python's string model); `datetime` values are embedded as a record of
six numeric fields compared lexicographically (which is exactly how Python
compares `datetime` objects); code paths that can raise an exception are
embedded as `Except Unit` computations.  All definitions are transcribed from
the repository sources (`kinoweek/sources/base.py`, `kinoweek/aggregator.py`,
`kinoweek/models.py`, `kinoweek/output.py`, `kinoweek/notifier.py`,
`kinoweek/config.py`).
-/

namespace KinoWeek

/-- Convert a Lean string literal to the `List Char` representation used for
Python strings throughout this development. -/
def str (s : String) : List Char := s.toList

/-- Python's substring test `pat in hay` (`str.__contains__`): `true` iff
`pat` occurs contiguously inside `hay` (the empty pattern always occurs). -/
def containsSub : List Char → List Char → Bool
  | [], pat => pat.isEmpty
  | c :: t, pat => pat.isPrefixOf (c :: t) || containsSub t pat

/-
`is_original_version` from `kinoweek/sources/base.py` (lines 197-221):

    if not language:
        return False
    if "Deutsch" in language:
        return "Untertitel:" in language
    return True
-/

/-- The OV / language classifier `is_original_version` from
`kinoweek/sources/base.py`.  An empty label is never OV; a label mentioning
"Deutsch" is OV exactly when it also mentions "Untertitel:" (with the colon,
as the source checks); any other label is OV. -/
def is_original_version (language : List Char) : Bool :=
  if language = [] then false
  else if containsSub language (str "Deutsch") then
    containsSub language (str "Untertitel:")
  else true

/-- Boolean lexicographic order on lists over a linear order.  Python compares
strings and tuples (hence `datetime` objects) exactly this way. -/
def lexLe {α : Type} [LinearOrder α] : List α → List α → Bool
  | [], _ => true
  | _ :: _, [] => false
  | a :: as, b :: bs => if a = b then lexLe as bs else decide (a < b)

/-- Embedding of Python's `datetime.datetime`: six numeric fields.  Events in
this program always carry `second = 0` except those parsed from full ISO-8601
strings. -/
structure PyDateTime where
  year : Nat
  month : Nat
  day : Nat
  hour : Nat
  minute : Nat
  second : Nat
deriving DecidableEq

/-- The comparison key of a `datetime`: Python orders `datetime` values
lexicographically by their fields. -/
def PyDateTime.key (d : PyDateTime) : List Nat :=
  [d.year, d.month, d.day, d.hour, d.minute, d.second]

/-- Python's `<=` on `datetime` values. -/
def PyDateTime.leb (a b : PyDateTime) : Bool := lexLe a.key b.key

/-- Python's `<` on `datetime` values (in a linear order, `a < b` iff
`not (b <= a)`). -/
def PyDateTime.ltb (a b : PyDateTime) : Bool := !PyDateTime.leb b a

/-- Leap-year rule of the proleptic Gregorian calendar (as implemented by
Python's `datetime`). -/
def isLeap (y : Nat) : Bool := (y % 4 == 0 && y % 100 != 0) || y % 400 == 0

/-- Number of days in a month (Python `calendar`/`datetime` rules). -/
def daysInMonth (y m : Nat) : Nat :=
  if m = 2 then (if isLeap y then 29 else 28)
  else if m = 4 ∨ m = 6 ∨ m = 9 ∨ m = 11 then 30
  else 31

/-- The calendar successor of a day (time of day unchanged). -/
def nextDay (d : PyDateTime) : PyDateTime :=
  if d.day < daysInMonth d.year d.month then { d with day := d.day + 1 }
  else if d.month < 12 then { d with month := d.month + 1, day := 1 }
  else { d with year := d.year + 1, month := 1, day := 1 }

/-- Python's `dt + timedelta(days=n)` for a non-negative whole number of
days: `n` calendar successors, time of day unchanged. -/
def addDays (n : Nat) (d : PyDateTime) : PyDateTime := nextDay^[n] d

/-
The data model from `kinoweek/models.py`:
`EventCategory = Literal["movie", "culture", "radar"]`,
`EventMetadata = dict[str, str | int | list[str]]`, and the `Event`
dataclass whose `metadata` field defaults to an empty dict.
-/

/-- `EventCategory`: the `Literal["movie", "culture", "radar"]` annotation is
embedded as a closed inductive type, so a well-typed `Event` can only carry
one of the three declared categories. -/
inductive EventCategory
  | movie
  | culture
  | radar
deriving DecidableEq

/-- A value of the declared metadata value type `str | int | list[str]`. -/
inductive MetaVal
  | s (v : List Char)
  | n (v : Int)
  | l (v : List (List Char))
deriving DecidableEq

/-- `EventMetadata`: a string-keyed mapping, embedded as an association list
(Python dicts preserve insertion order). -/
abbrev Metadata := List (List Char × MetaVal)

/-- Python's `dict.get(key, default)`. -/
def mgetD (m : Metadata) (k : List Char) (dflt : MetaVal) : MetaVal :=
  match m.lookup k with
  | some v => v
  | none => dflt

/-- The `Event` dataclass from `kinoweek/models.py`.  `metadata` defaults to
an empty mapping (`field(default_factory=dict)`). -/
structure Event where
  title : List Char
  date : PyDateTime
  venue : List Char
  url : List Char
  category : EventCategory
  metadata : Metadata := []
deriving DecidableEq

/-- `Event.is_this_week` from `kinoweek/models.py`:
`today <= self.date <= today + timedelta(days=7)`.  The source calls
`datetime.now()` for `today`; the clock reading is a parameter here. -/
def Event.is_this_week (today : PyDateTime) (e : Event) : Bool :=
  PyDateTime.leb today e.date && PyDateTime.leb e.date (addDays 7 today)

/-
The aggregator from `kinoweek/aggregator.py`.  A registered source is
embedded by what the orchestration loop observes of it: its `enabled` flag
and the outcome of `instance.fetch()` (a list of events, or a raised
exception embedded as `.error ()`).
-/

/-- A registered source as seen by `fetch_all_events`. -/
structure Source where
  enabled : Bool
  fetchResult : Except Unit (List Event)

/-- One iteration of the per-source loop in `fetch_all_events`: skip a
disabled source, absorb a raised exception (log-and-continue), and otherwise
append the fetched events to the `all_movies` / `radar_events` accumulators
according to `event.category == "movie"`. -/
def processSource (acc : List Event × List Event) (s : Source) :
    List Event × List Event :=
  if s.enabled = false then acc
  else
    match s.fetchResult with
    | .error _ => acc
    | .ok events =>
      (acc.1 ++ events.filter (fun e => e.category == .movie),
       acc.2 ++ events.filter (fun e => !(e.category == .movie)))

/-- The sort key used by both `sorted(..., key=lambda e: e.date)` calls. -/
def dateLe (a b : Event) : Bool := PyDateTime.leb a.date b.date

/-- The dictionary returned by `fetch_all_events`. -/
structure CategorizedResult where
  movies_this_week : List Event
  big_events_radar : List Event
deriving DecidableEq

/-- `fetch_all_events` from `kinoweek/aggregator.py`: loop over the sources
accumulating movie / non-movie events, then filter the movies to the
7-day window, filter the radar events to strictly beyond the window, and sort
each bucket ascending by date.  Python's `sorted` is a stable sort, embedded
as `List.mergeSort`; `datetime.now()` is the `today` parameter. -/
def fetch_all_events (sources : List Source) (today : PyDateTime) :
    CategorizedResult :=
  let next_week := addDays 7 today
  let acc := sources.foldl processSource ([], [])
  { movies_this_week :=
      (acc.1.filter (fun m => Event.is_this_week today m)).mergeSort dateLe
    big_events_radar :=
      (acc.2.filter (fun r => PyDateTime.ltb next_week r.date)).mergeSort dateLe }

/-- The concatenation of the event lists produced by the enabled,
non-raising sources, in source-iteration order. -/
def flatFetch : List Source → List Event
  | [] => []
  | s :: rest =>
    (if s.enabled = false then []
     else
       match s.fetchResult with
       | .error _ => []
       | .ok events => events) ++ flatFetch rest

/-- A sample instant used to instantiate clock-dependent theorems. -/
def wToday : PyDateTime := ⟨2025, 1, 1, 12, 0, 0⟩

/-- A sample movie showing two days out. -/
def wMovie : Event :=
  { title := str "Dune", date := ⟨2025, 1, 3, 20, 0, 0⟩,
    venue := str "Astor Grand Cinema", url := str "https://example.com/dune",
    category := .movie }

/-- A sample concert a month out. -/
def wRadar : Event :=
  { title := str "Concert", date := ⟨2025, 2, 1, 20, 0, 0⟩,
    venue := str "ZAG Arena", url := str "https://example.com/concert",
    category := .radar }

/-- A sample non-movie event dated exactly seven days after `wToday`. -/
def wBoundary : Event :=
  { title := str "Boundary", date := ⟨2025, 1, 8, 12, 0, 0⟩,
    venue := str "Capitol Hannover", url := str "https://example.com/b",
    category := .radar }

/-- A healthy sample source. -/
def wSource : Source :=
  { enabled := true, fetchResult := .ok [wMovie, wRadar, wBoundary] }

/-- A second healthy sample source. -/
def wSource2 : Source :=
  { enabled := true, fetchResult := .ok [wRadar] }

/-- A sample source whose `fetch()` raises. -/
def wBad : Source := { enabled := true, fetchResult := .error () }

/-
The date normalizers from `kinoweek/sources/base.py` (lines 224-284).
`parse_german_date` first tries `datetime.strptime` with four exact formats
(each caught `ValueError` moves to the next), then falls back to regex
searches for a `\d{1,2}.\d{1,2}.\d{4}` date and a `\d{1,2}:\d{2}` time; a
`datetime(...)` constructed in the fallback with out-of-range components
raises an uncaught `ValueError`, embedded as `.error ()`.  Only ASCII digits
are modeled for `\d`.
-/

/-- Numeric value of an ASCII digit. -/
def digitVal (c : Char) : Nat := c.toNat - 48

/-- Consume exactly one ASCII digit. -/
def oneDigit? : List Char -> Option (Nat × List Char)
  | c :: r => if c.isDigit then some (digitVal c, r) else none
  | [] => none

/-- Consume exactly two ASCII digits. -/
def twoDigits? : List Char -> Option (Nat × List Char)
  | a :: b :: r =>
    if a.isDigit && b.isDigit then some (digitVal a * 10 + digitVal b, r)
    else none
  | _ => none

/-- Consume exactly four ASCII digits. -/
def fourDigits? : List Char -> Option (Nat × List Char)
  | a :: b :: c :: d :: r =>
    if a.isDigit && b.isDigit && c.isDigit && d.isDigit then
      some (((digitVal a * 10 + digitVal b) * 10 + digitVal c) * 10
        + digitVal d, r)
    else none
  | _ => none

/-- Consume one expected literal character. -/
def litP (ch : Char) : List Char -> Option (List Char)
  | c :: r => if c = ch then some r else none
  | [] => none

/-- A regex-style numeric field with backtracking: prefer a two-digit match
with value in `[lo2, hi2]` continued by `k`; if that whole branch fails, fall
back to a one-digit match with value in `[lo1, hi1]`.  This is the
alternation semantics of the patterns Python's `strptime` compiles for
`%d`, `%m`, `%H`, `%M`, `%S`, and of the loose `\d{1,2}` search patterns. -/
def numField {α : Type} (lo2 hi2 lo1 hi1 : Nat) (l : List Char)
    (k : Nat -> List Char -> Option α) : Option α :=
  let two : Option α :=
    match twoDigits? l with
    | some (v, r) => if lo2 ≤ v ∧ v ≤ hi2 then k v r else none
    | none => none
  match two with
  | some x => some x
  | none =>
    match oneDigit? l with
    | some (v, r) => if lo1 ≤ v ∧ v ≤ hi1 then k v r else none
    | none => none

/-- Day-of-month and year bounds enforced by the `datetime` constructor
(`MINYEAR = 1`, `MAXYEAR = 9999`, day within the month's length). -/
def validYMD (y mo d : Nat) : Bool :=
  decide (1 ≤ y ∧ y ≤ 9999 ∧ 1 ≤ mo ∧ mo ≤ 12 ∧ 1 ≤ d ∧ d ≤ daysInMonth y mo)

/-- `datetime.strptime(s, "%Y-%m-%dT%H:%M:%S")`: full match required; an
out-of-range date (or a 60/61 leap second admitted by the `%S` pattern)
raises `ValueError` inside `strptime`, which the caller catches, so it is a
failure here. -/
def strptimeIsoFull (l : List Char) : Option PyDateTime :=
  match fourDigits? l with
  | none => none
  | some (y, r1) =>
    match litP '-' r1 with
    | none => none
    | some r2 =>
      numField 1 12 1 9 r2 fun mo r3 =>
      match litP '-' r3 with
      | none => none
      | some r4 =>
        numField 1 31 1 9 r4 fun d r5 =>
        match litP 'T' r5 with
        | none => none
        | some r6 =>
          numField 0 23 0 9 r6 fun h r7 =>
          match litP ':' r7 with
          | none => none
          | some r8 =>
            numField 0 59 0 9 r8 fun mi r9 =>
            match litP ':' r9 with
            | none => none
            | some r10 =>
              numField 0 61 0 9 r10 fun sec r11 =>
              if r11.isEmpty && validYMD y mo d && decide (sec ≤ 59) then
                some ⟨y, mo, d, h, mi, sec⟩
              else none

/-- `datetime.strptime(s, "%Y-%m-%d")`. -/
def strptimeIsoDate (l : List Char) : Option PyDateTime :=
  match fourDigits? l with
  | none => none
  | some (y, r1) =>
    match litP '-' r1 with
    | none => none
    | some r2 =>
      numField 1 12 1 9 r2 fun mo r3 =>
      match litP '-' r3 with
      | none => none
      | some r4 =>
        numField 1 31 1 9 r4 fun d r5 =>
        if r5.isEmpty && validYMD y mo d then some ⟨y, mo, d, 0, 0, 0⟩
        else none

/-- `datetime.strptime(s, "%d.%m.%Y")`: an exact dotted date parses to
midnight (fields not mentioned by the format default to zero). -/
def strptimeDotted (l : List Char) : Option PyDateTime :=
  numField 1 31 1 9 l fun d r1 =>
  match litP '.' r1 with
  | none => none
  | some r2 =>
    numField 1 12 1 9 r2 fun mo r3 =>
    match litP '.' r3 with
    | none => none
    | some r4 =>
      match fourDigits? r4 with
      | none => none
      | some (y, r5) =>
        if r5.isEmpty && validYMD y mo d then some ⟨y, mo, d, 0, 0, 0⟩
        else none

/-- `datetime.strptime(s, "%d.%m.%Y %H:%M")`. -/
def strptimeDottedTime (l : List Char) : Option PyDateTime :=
  numField 1 31 1 9 l fun d r1 =>
  match litP '.' r1 with
  | none => none
  | some r2 =>
    numField 1 12 1 9 r2 fun mo r3 =>
    match litP '.' r3 with
    | none => none
    | some r4 =>
      match fourDigits? r4 with
      | none => none
      | some (y, r5) =>
        match litP ' ' r5 with
        | none => none
        | some r6 =>
          numField 0 23 0 9 r6 fun h r7 =>
          match litP ':' r7 with
          | none => none
          | some r8 =>
            numField 0 59 0 9 r8 fun mi r9 =>
            if r9.isEmpty && validYMD y mo d then some ⟨y, mo, d, h, mi, 0⟩
            else none

/-- The four-format `strptime` loop of `parse_german_date`, in source
order. -/
def strptimeChain (t : List Char) : Option PyDateTime :=
  match strptimeIsoFull t with
  | some dt => some dt
  | none =>
    match strptimeIsoDate t with
    | some dt => some dt
    | none =>
      match strptimeDotted t with
      | some dt => some dt
      | none => strptimeDottedTime t

/-- Match of the loose date regex `(\d{1,2})\.(\d{1,2})\.(\d{4})` anchored at
the start of `l` (values unconstrained, as in the regex). -/
def matchDateAt (l : List Char) : Option (Nat × Nat × Nat) :=
  numField 0 99 0 9 l fun d r1 =>
  match litP '.' r1 with
  | none => none
  | some r2 =>
    numField 0 99 0 9 r2 fun mo r3 =>
    match litP '.' r3 with
    | none => none
    | some r4 =>
      match fourDigits? r4 with
      | some (y, _) => some (d, mo, y)
      | none => none

/-- `re.search` for the loose date regex: leftmost match. -/
def searchDate : List Char -> Option (Nat × Nat × Nat)
  | [] => none
  | c :: t =>
    match matchDateAt (c :: t) with
    | some x => some x
    | none => searchDate t

/-- Match of the time regex `(\d{1,2}):(\d{2})` anchored at the start of
`l`. -/
def matchTimeAt (l : List Char) : Option (Nat × Nat) :=
  numField 0 99 0 9 l fun h r1 =>
  match litP ':' r1 with
  | none => none
  | some r2 =>
    match twoDigits? r2 with
    | some (mi, _) => some (h, mi)
    | none => none

/-- `re.search` for the time regex: leftmost match. -/
def searchTime : List Char -> Option (Nat × Nat)
  | [] => none
  | c :: t =>
    match matchTimeAt (c :: t) with
    | some x => some x
    | none => searchTime t

/-- Python's whitespace test used by `str.strip()` (ASCII whitespace; the
sources never feed non-ASCII whitespace). -/
def pyIsSpace (c : Char) : Bool :=
  c = ' ' || c = '\t' || c = '\n' || c = '\r' || c = '\x0b' || c = '\x0c'

/-- Python's `str.strip()`. -/
def pyStrip (s : List Char) : List Char :=
  ((s.dropWhile pyIsSpace).reverse.dropWhile pyIsSpace).reverse

/-- The `datetime(year, month, day, hour, minute)` constructor: raises
`ValueError` (here `.error ()`) on out-of-range components. -/
def mkDatetimeChecked (y mo d h mi : Nat) : Except Unit PyDateTime :=
  if 1 ≤ y ∧ y ≤ 9999 ∧ 1 ≤ mo ∧ mo ≤ 12 ∧ 1 ≤ d ∧ d ≤ daysInMonth y mo ∧
      h ≤ 23 ∧ mi ≤ 59 then
    .ok ⟨y, mo, d, h, mi, 0⟩
  else .error ()

/-- `parse_german_date` from `kinoweek/sources/base.py`: the `strptime` loop
over the stripped input, then the loose regex fallback over the original
input, defaulting the time to 20:00; the fallback's `datetime(...)` call can
raise (uncaught). -/
def parse_german_date (date_str : List Char) : Except Unit (Option PyDateTime) :=
  match strptimeChain (pyStrip date_str) with
  | some dt => .ok (some dt)
  | none =>
    match searchDate date_str with
    | some (d, mo, y) =>
      match searchTime date_str with
      | some (h, mi) => (mkDatetimeChecked y mo d h mi).map some
      | none => (mkDatetimeChecked y mo d 20 0).map some
    | none => .ok none

/-- The letter class of the venue regex
`(\d{1,2})([A-ZÄÖÜa-zäöü]+)(\d{4})`. -/
def isVenueLetter (c : Char) : Bool :=
  ('A' ≤ c && c ≤ 'Z') || ('a' ≤ c && c ≤ 'z') ||
  c = 'Ä' || c = 'Ö' || c = 'Ü' || c = 'ä' || c = 'ö' || c = 'ü'

/-- Match of the venue regex anchored at the start of `l`: day digits, a
non-empty maximal letter run, then four digits. -/
def matchVenueAt (l : List Char) : Option (Nat × List Char × Nat) :=
  numField 0 99 0 9 l fun d r1 =>
    let letters := r1.takeWhile isVenueLetter
    if letters.isEmpty then none
    else
      match fourDigits? (r1.drop letters.length) with
      | some (y, _) => some (d, letters, y)
      | none => none

/-- `re.search` for the venue regex: leftmost match. -/
def searchVenue : List Char -> Option (Nat × List Char × Nat)
  | [] => none
  | c :: t =>
    match matchVenueAt (c :: t) with
    | some x => some x
    | none => searchVenue t

/-- Python's `str.lower()` restricted to the characters the venue regex can
produce (ASCII letters and the German umlauts in its class). -/
def pyLower (s : List Char) : List Char :=
  s.map fun c =>
    if 'A' ≤ c ∧ c ≤ 'Z' then Char.ofNat (c.toNat + 32)
    else if c = 'Ä' then 'ä'
    else if c = 'Ö' then 'ö'
    else if c = 'Ü' then 'ü'
    else c

/-- `GERMAN_MONTH_MAP` from `kinoweek/config.py`, transcribed byte-for-byte
(the repository file genuinely contains the mojibake keys "m채r" and
"m채rz"). -/
def GERMAN_MONTH_MAP : List (List Char × Nat) :=
  [(str "jan", 1), (str "januar", 1), (str "feb", 2), (str "februar", 2),
   (str "m채r", 3), (str "m채rz", 3), (str "mar", 3), (str "apr", 4),
   (str "april", 4), (str "mai", 5), (str "may", 5), (str "jun", 6),
   (str "juni", 6), (str "jul", 7), (str "juli", 7), (str "aug", 8),
   (str "august", 8), (str "sep", 9), (str "september", 9), (str "okt", 10),
   (str "oktober", 10), (str "oct", 10), (str "nov", 11),
   (str "november", 11), (str "dez", 12), (str "dezember", 12),
   (str "dec", 12)]

/-- `parse_venue_date` from `kinoweek/sources/base.py`: venue regex search,
month-name lookup defaulting to 1, time fixed at 20:00; the `datetime(...)`
call can raise (uncaught). -/
def parse_venue_date (date_str : List Char) : Except Unit (Option PyDateTime) :=
  match searchVenue date_str with
  | some (d, monthStr, y) =>
    let month :=
      match GERMAN_MONTH_MAP.lookup (pyLower monthStr) with
      | some m => m
      | none => 1
    (mkDatetimeChecked y month d 20 0).map some
  | none => .ok none

/-
String-formatting helpers shared by `output.py` and `notifier.py`:
Python `str()` / f-string rendering of metadata values, `int()` and `list()`
conversions (both can raise on unsuitable values), `str.replace`, and the
`strftime` pieces the code uses.
-/

/-- Decimal digits of a natural number, with explicit fuel so that the
definition reduces in the kernel (`fuel ≥ number` suffices since `n / 10`
shrinks every step). -/
def natDigitsAux : Nat → Nat → List Char
  | 0, _ => []
  | fuel + 1, n =>
    if n < 10 then [Char.ofNat (48 + n)]
    else natDigitsAux fuel (n / 10) ++ [Char.ofNat (48 + n % 10)]

/-- Decimal digits of a natural number, as Python's `str` renders it. -/
def natDigits (n : Nat) : List Char := natDigitsAux (n + 1) n

/-- Python's `str()` of an `int`. -/
def pyStrInt (k : Int) : List Char :=
  if k < 0 then '-' :: natDigits k.natAbs else natDigits k.toNat

/-- `sep.join(parts)`. -/
def joinSep (sep : List Char) : List (List Char) → List Char
  | [] => []
  | [x] => x
  | x :: y :: rest => x ++ sep ++ joinSep sep (y :: rest)

/-- Python's `str()` / f-string rendering of a metadata value (for a list
value, the `repr` with single quotes; escaping inside the items is not
modeled, the program never renders list-valued fields this way). -/
def MetaVal.pyStr : MetaVal → List Char
  | .s v => v
  | .n k => pyStrInt k
  | .l xs =>
    str "[" ++ joinSep (str ", ")
      (xs.map (fun x => Char.ofNat 39 :: (x ++ [Char.ofNat 39]))) ++ str "]"

/-- Digits-only string to number (helper for `int(str)`). -/
def digitsToNat (l : List Char) : Option Nat :=
  if l ≠ [] ∧ l.all Char.isDigit then
    some (l.foldl (fun acc c => acc * 10 + digitVal c) 0)
  else none

/-- Python's `int(x)` on a metadata value: an `int` passes through, a string
must be (possibly signed) decimal digits after stripping whitespace
(`ValueError` otherwise, underscore grouping not modeled), a list raises
`TypeError`.  `none` embeds the raised exception. -/
def pyInt? : MetaVal → Option Int
  | .n k => some k
  | .s v =>
    match pyStrip v with
    | [] => none
    | c :: rest =>
      if c = '-' then (digitsToNat rest).map (fun n => -(n : Int))
      else if c = '+' then (digitsToNat rest).map (fun n => (n : Int))
      else (digitsToNat (c :: rest)).map (fun n => (n : Int))
  | .l _ => none

/-- Python's `list(x)` on a metadata value: a list is copied, a string
becomes its list of one-character strings, an `int` raises `TypeError`. -/
def pyList? : MetaVal → Option (List (List Char))
  | .l xs => some xs
  | .s v => some (v.map (fun c => [c]))
  | .n _ => none

/-- Python truthiness of a metadata value (`0`, `""` and `[]` are falsy). -/
def MetaVal.truthy : MetaVal → Bool
  | .s v => !v.isEmpty
  | .n k => decide (k ≠ 0)
  | .l xs => !xs.isEmpty

/-- Two-digit zero-padded field (`%m`, `%d`, `%H`, `%M`). -/
def pad2 (n : Nat) : List Char :=
  if n < 10 then '0' :: natDigits n else natDigits n

/-- Four-digit zero-padded year (`%Y`). -/
def pad4 (n : Nat) : List Char :=
  if n < 10 then str "000" ++ natDigits n
  else if n < 100 then str "00" ++ natDigits n
  else if n < 1000 then '0' :: natDigits n
  else natDigits n

/-- `dt.strftime("%Y-%m-%d")`. -/
def fmtYMD (d : PyDateTime) : List Char :=
  pad4 d.year ++ str "-" ++ pad2 d.month ++ str "-" ++ pad2 d.day

/-- `dt.strftime("%H:%M")`. -/
def fmtHM (d : PyDateTime) : List Char :=
  pad2 d.hour ++ str ":" ++ pad2 d.minute

/-- Python's `s.replace(old, new)` for non-empty `old`, with explicit fuel
(`fuel ≥ len(s)` suffices) so the definition reduces in the kernel:
replace every non-overlapping occurrence, scanning left to right. -/
def pyReplaceAux (old new : List Char) : Nat → List Char → List Char
  | _, [] => []
  | 0, s => s
  | fuel + 1, c :: rest =>
    if old ≠ [] ∧ old.isPrefixOf (c :: rest) = true then
      new ++ pyReplaceAux old new fuel ((c :: rest).drop old.length)
    else c :: pyReplaceAux old new fuel rest

/-- Python's `s.replace(old, new)` (for empty `old`, Python inserts `new`
at every position). -/
def pyReplace (s old new : List Char) : List Char :=
  if old.isEmpty then new ++ s.foldr (fun c acc => c :: (new ++ acc)) []
  else pyReplaceAux old new s.length s

/-
The grouping module from `kinoweek/output.py` (lines 39-137): the `Showtime`
and `GroupedMovie` dataclasses and `group_movies_by_film`.
-/

/-- The `Showtime` dataclass. -/
structure Showtime where
  date : List Char
  time : List Char
  language : List Char
  has_subtitles : Bool := false
deriving DecidableEq

/-- The `GroupedMovie` dataclass.  `cast` is `list(...)` of a metadata
value, typed here by the declared `EventMetadata` value type. -/
structure GroupedMovie where
  title : List Char
  year : Int
  duration_min : Int
  rating : Int
  country : List Char
  genres : List (List Char)
  synopsis : List Char
  poster_url : List Char
  trailer_url : List Char
  cast : List (List Char)
  ticket_url : List Char
  venue : List Char
  showtimes : List Showtime := []
  movie_id : List Char := []
deriving DecidableEq

/-- The grouping key `f"{event.title}_{event.metadata.get('year', 0)}"`. -/
def filmKey (e : Event) : List Char :=
  e.title ++ str "_" ++ (mgetD e.metadata (str "year") (.n 0)).pyStr

/-- The `Showtime` appended for one event: formatted date and time, the
compacted language label (the substitution chain of `output.py`, transcribed
byte-for-byte — the repository file contains the mojibake key
"FranzÃ¶sisch"), and the subtitle flag `"Untertitel:" in language`. -/
def mkShowtime (e : Event) : Showtime :=
  let language := (mgetD e.metadata (str "language") (.s [])).pyStr
  let has_subtitles := containsSub language (str "Untertitel:")
  let lang1 := pyReplace language (str "Sprache: ") (str "")
  let lang2 := pyReplace lang1 (str "Untertitel: ") (str "UT:")
  let lang3 := pyReplace lang2 (str "Englisch") (str "EN")
  let lang4 := pyReplace lang3 (str "Japanisch") (str "JP")
  let lang5 := pyReplace lang4 (str "Deutsch") (str "DE")
  let lang6 := pyReplace lang5 (str "FranzÃ¶sisch") (str "FR")
  let lang7 := pyReplace lang6 (str "Italienisch") (str "IT")
  let lang8 := pyReplace lang7 (str "Spanisch") (str "ES")
  { date := fmtYMD e.date, time := fmtHM e.date, language := lang8,
    has_subtitles := has_subtitles }

/-- The `GroupedMovie` seeded from the first event of a key: the `int(...)`
conversions on year / duration / rating and the `list(...)` conversions on
genres / cast can raise, so the seed is partial. -/
def seedGroupedMovie? (e : Event) : Option GroupedMovie := do
  let year ← pyInt? (mgetD e.metadata (str "year") (.n 0))
  let duration ← pyInt? (mgetD e.metadata (str "duration") (.n 0))
  let rating ← pyInt? (mgetD e.metadata (str "rating") (.n 0))
  let genres ← pyList? (mgetD e.metadata (str "genres") (.l []))
  let castL ← pyList? (mgetD e.metadata (str "cast") (.l []))
  some
    { title := e.title, year := year, duration_min := duration,
      rating := rating,
      country := (mgetD e.metadata (str "country") (.s [])).pyStr,
      genres := genres,
      synopsis := (mgetD e.metadata (str "synopsis") (.s [])).pyStr,
      poster_url := (mgetD e.metadata (str "poster_url") (.s [])).pyStr,
      trailer_url := (mgetD e.metadata (str "trailer_url") (.s [])).pyStr,
      cast := castL, ticket_url := e.url, venue := e.venue,
      movie_id := (mgetD e.metadata (str "movie_id") (.s [])).pyStr }

/-- Python's in-place dict-entry update `films[key].showtimes.append(...)`,
on the association-list embedding (keys are unique by construction). -/
def updateAssoc (films : List (List Char × GroupedMovie)) (k : List Char)
    (f : GroupedMovie → GroupedMovie) : List (List Char × GroupedMovie) :=
  films.map (fun p => if p.1 = k then (p.1, f p.2) else p)

/-- One iteration of the `for event in movies` loop of
`group_movies_by_film`: create the group if the key is new (possibly raising
from the conversions), then append this event's `Showtime` to the group. -/
def groupStep (films : List (List Char × GroupedMovie)) (e : Event) :
    Except Unit (List (List Char × GroupedMovie)) :=
  let key := filmKey e
  if (films.lookup key).isSome then
    .ok (updateAssoc films key
      (fun g => { g with showtimes := g.showtimes ++ [mkShowtime e] }))
  else
    match seedGroupedMovie? e with
    | none => .error ()
    | some g =>
      .ok (updateAssoc (films ++ [(key, g)]) key
        (fun g2 => { g2 with showtimes := g2.showtimes ++ [mkShowtime e] }))

/-- The `result.sort` key: `m.showtimes[0].date if m.showtimes else ""`. -/
def gmKey (m : GroupedMovie) : List Char :=
  match m.showtimes with
  | [] => []
  | st :: _ => st.date

/-- The Boolean order induced by the sort key (Python string order on the
date strings). -/
def gmLe (a b : GroupedMovie) : Bool := lexLe (gmKey a) (gmKey b)

/-- `group_movies_by_film` from `kinoweek/output.py`: fold the events into
the insertion-ordered dict of groups, then sort the groups by their first
showtime's date string (Python `list.sort` is stable; `mergeSort` again). -/
def group_movies_by_film (movies : List Event) :
    Except Unit (List GroupedMovie) := do
  let films ← movies.foldlM groupStep []
  pure ((films.map (fun p => p.2)).mergeSort gmLe)

/-- Movie event "A" with a showtime on 2025-01-10. -/
def cA1 : Event :=
  { title := str "A", date := ⟨2025, 1, 10, 20, 0, 0⟩, venue := str "V",
    url := str "u", category := .movie }

/-- Movie event "A" with an earlier showtime on 2025-01-01, fetched after
the later one. -/
def cA2 : Event :=
  { title := str "A", date := ⟨2025, 1, 1, 19, 0, 0⟩, venue := str "V",
    url := str "u", category := .movie }

/-- Movie event "B" with its only showtime on 2025-01-05. -/
def cB : Event :=
  { title := str "B", date := ⟨2025, 1, 5, 20, 0, 0⟩, venue := str "V",
    url := str "u", category := .movie }

/-- The group seeded from `cA1` / `cA2` (empty metadata). -/
def cG0 : GroupedMovie :=
  { title := str "A", year := 0, duration_min := 0, rating := 0,
    country := [], genres := [], synopsis := [], poster_url := [],
    trailer_url := [], cast := [], ticket_url := str "u", venue := str "V" }

/-- The group seeded from `cB` (empty metadata). -/
def cG0B : GroupedMovie :=
  { title := str "B", year := 0, duration_min := 0, rating := 0,
    country := [], genres := [], synopsis := [], poster_url := [],
    trailer_url := [], cast := [], ticket_url := str "u", venue := str "V" }

/-- Film "A" grouped with its two showtimes in arrival order. -/
def cGA : GroupedMovie :=
  { cG0 with showtimes := [mkShowtime cA1, mkShowtime cA2] }

/-- Film "B" grouped with its single showtime. -/
def cGB : GroupedMovie := { cG0B with showtimes := [mkShowtime cB] }

/-
The notifier from `kinoweek/notifier.py`: the language / venue / day / month
tables, the per-entry formatters, the two sections, and `format_message`
with its Telegram length ceiling.  Both `datetime.now()` readings
(`isocalendar()[1]` for the week number and `.year` for the concert dates)
are parameters.  The `int(duration)` conversion and the `.replace` calls on
a non-string language value can raise, so the movies section and the whole
message are `Except` computations.
-/

/-- `TELEGRAM_MESSAGE_MAX_LENGTH` from `kinoweek/config.py`. -/
def TELEGRAM_MESSAGE_MAX_LENGTH : Nat := 4096

/-- The fixed truncation marker appended by `format_message`. -/
def truncMarker : List Char := str "\n\n... (truncated)"

/-- `_abbreviate_language`: the `_LANGUAGE_ABBREVIATIONS` substitution chain
in dict order (this file spells "Französisch" correctly, unlike
`output.py`). -/
def abbrevLanguage (language : List Char) : List Char :=
  let r1 := pyReplace language (str "Sprache: ") []
  let r2 := pyReplace r1 (str "Untertitel: ") (str "UT:")
  let r3 := pyReplace r2 (str "Englisch") (str "EN")
  let r4 := pyReplace r3 (str "Japanisch") (str "JP")
  let r5 := pyReplace r4 (str "Italienisch") (str "IT")
  let r6 := pyReplace r5 (str "Spanisch") (str "ES")
  let r7 := pyReplace r6 (str "Russisch") (str "RU")
  let r8 := pyReplace r7 (str "Deutsch") (str "DE")
  let r9 := pyReplace r8 (str "Französisch") (str "FR")
  let r10 := pyReplace r9 (str "Koreanisch") (str "KR")
  pyReplace r10 (str "Chinesisch") (str "ZH")

/-- `_abbreviate_venue`: `_VENUE_ABBREVIATIONS.get(venue, venue)`. -/
def abbrevVenue (venue : List Char) : List Char :=
  if venue = str "ZAG Arena" then str "ZAG Arena"
  else if venue = str "Swiss Life Hall" then str "Swiss Life Hall"
  else if venue = str "Capitol Hannover" then str "Capitol"
  else venue

/-- Days since some fixed epoch up to January 1st of year `y` (proleptic
Gregorian, as `datetime.date.toordinal`). -/
def daysBeforeYear (y : Nat) : Nat :=
  365 * (y - 1) + (y - 1) / 4 - (y - 1) / 100 + (y - 1) / 400

/-- Days in year `y` before month `m`. -/
def daysBeforeMonth (y m : Nat) : Nat :=
  ((List.range (m - 1)).map (fun k => daysInMonth y (k + 1))).sum

/-- Python's `datetime.weekday()`: Monday is 0 (0001-01-01 is a Monday). -/
def pyWeekday (d : PyDateTime) : Nat :=
  (daysBeforeYear d.year + daysBeforeMonth d.year d.month + d.day - 1) % 7

/-- C-locale `%a` weekday abbreviations used by `strftime`. -/
def engDayAbbrev (w : Nat) : List Char :=
  match w with
  | 0 => str "Mon"
  | 1 => str "Tue"
  | 2 => str "Wed"
  | 3 => str "Thu"
  | 4 => str "Fri"
  | 5 => str "Sat"
  | 6 => str "Sun"
  | _ => []

/-- `Event.format_date_short` from `kinoweek/models.py`:
`strftime("%a %d.%m.")`. -/
def format_date_short (e : Event) : List Char :=
  engDayAbbrev (pyWeekday e.date) ++ str " " ++ pad2 e.date.day ++ str "." ++
    pad2 e.date.month ++ str "."

/-- `_GERMAN_DAYS.get(weekday, "")`. -/
def germanDay (w : Nat) : List Char :=
  match w with
  | 0 => str "Mo"
  | 1 => str "Di"
  | 2 => str "Mi"
  | 3 => str "Do"
  | 4 => str "Fr"
  | 5 => str "Sa"
  | 6 => str "So"
  | _ => []

/-- `_GERMAN_MONTHS.get(month, "")`. -/
def germanMonth (m : Nat) : List Char :=
  match m with
  | 1 => str "Jan"
  | 2 => str "Feb"
  | 3 => str "Mär"
  | 4 => str "Apr"
  | 5 => str "Mai"
  | 6 => str "Jun"
  | 7 => str "Jul"
  | 8 => str "Aug"
  | 9 => str "Sep"
  | 10 => str "Okt"
  | 11 => str "Nov"
  | 12 => str "Dez"
  | _ => []

/-- `_format_duration` (both modules share this shape). -/
def format_duration (minutes : Int) : List Char :=
  if minutes ≤ 0 then []
  else
    let hours := minutes.toNat / 60
    let mins := minutes.toNat % 60
    if hours > 0 then
      if mins ≠ 0 then natDigits hours ++ ['h'] ++ natDigits mins ++ ['m']
      else natDigits hours ++ ['h']
    else natDigits mins ++ ['m']

/-- `_format_movie_metadata`: duration (via a possibly-raising
`int(duration)`) and `FSK` rating parts. -/
def format_movie_metadata (e : Event) : Except Unit (List (List Char)) :=
  let duration := mgetD e.metadata (str "duration") (.n 0)
  let rating := mgetD e.metadata (str "rating") (.n 0)
  if duration.truthy then
    match pyInt? duration with
    | none => .error ()
    | some dInt =>
      .ok (if rating.truthy then
            [format_duration dInt, str "FSK" ++ rating.pyStr]
          else [format_duration dInt])
  else
    .ok (if rating.truthy then [str "FSK" ++ rating.pyStr] else [])

/-- `_format_concert_date`: German day / month names, year only when not the
current year (`datetime.now().year` is the `nowYear` parameter). -/
def format_concert_date (nowYear : Nat) (e : Event) : List Char :=
  let dn := germanDay (pyWeekday e.date)
  let mn := germanMonth e.date.month
  if e.date.year ≠ nowYear then
    dn ++ str ", " ++ natDigits e.date.day ++ str ". " ++ mn ++ str " " ++
      natDigits e.date.year
  else
    dn ++ str ", " ++ natDigits e.date.day ++ str ". " ++ mn

/-- `_format_concert_entry`. -/
def format_concert_entry (nowYear : Nat) (e : Event) : List (List Char) :=
  [str "  *" ++ e.title ++ str "*",
   str "  " ++ format_concert_date nowYear e ++ str " | " ++
     (mgetD e.metadata (str "time") (.s (str "20:00"))).pyStr ++
     str " @ " ++ abbrevVenue e.venue]

/-- `_format_radar_section`: header, placeholder when empty, otherwise the
concert entries. -/
def format_radar_section (nowYear : Nat) (radar : List Event) : List Char :=
  if radar.isEmpty then
    joinSep (str "\n") [str "*On The Radar*", str "_No upcoming events_"]
  else
    joinSep (str "\n")
      (str "*On The Radar*" :: radar.flatMap (format_concert_entry nowYear))

/-- `_format_movie_entry`: title with optional year, optional metadata line,
time and abbreviated language.  Calling `.replace` on a non-string language
metadata value raises (`.error`). -/
def format_movie_entry (e : Event) : Except Unit (List (List Char)) :=
  let title :=
    match e.metadata.lookup (str "year") with
    | some y =>
      if y.truthy then e.title ++ str " (" ++ y.pyStr ++ str ")" else e.title
    | none => e.title
  (format_movie_metadata e).bind (fun meta_parts =>
    match mgetD e.metadata (str "language") (.s []) with
    | .s lang =>
      .ok ((str "  *" ++ title ++ str "*") ::
        ((if meta_parts.isEmpty then []
          else [str "  _" ++ joinSep (str " | ") meta_parts ++ str "_"]) ++
         [str "  " ++ fmtHM e.date ++ str " (" ++ abbrevLanguage lang ++
           str ")"]))
    | _ => .error ())

/-- `_format_movies_section`: header, placeholder when empty, otherwise the
events grouped by `format_date_short` in first-seen order (a Python dict),
each date introduced by a `\n*date*` line. -/
def format_movies_section (movies : List Event) : Except Unit (List Char) :=
  if movies.isEmpty then
    .ok (joinSep (str "\n")
      [str "*Movies (This Week)*", str "_No OV movies this week_"])
  else
    let grouped := movies.foldl (fun acc e =>
      let k := format_date_short e
      if (acc.lookup k).isSome then
        acc.map (fun p => if p.1 = k then (p.1, p.2 ++ [e]) else p)
      else acc ++ [(k, [e])]) ([] : List (List Char × List Event))
    (grouped.foldlM
      (fun (lines : List (List Char)) (p : List Char × List Event) =>
        (p.2.foldlM (fun (ls : List (List Char)) (e : Event) =>
            (format_movie_entry e).map (fun el => ls ++ el)) []).map
          (fun entryLines =>
            lines ++ [str "\n*" ++ p.1 ++ str "*"] ++ entryLines))
      [str "*Movies (This Week)*"]).map (joinSep (str "\n"))

/-- The composed (pre-truncation) message of `format_message`: the week
header line, the movies section, a blank line, the radar section, joined
with newlines and stripped. -/
def composeMessage (weekNum nowYear : Nat) (data : CategorizedResult) :
    Except Unit (List Char) :=
  (format_movies_section data.movies_this_week).map (fun ms =>
    pyStrip (joinSep (str "\n")
      [str "*Hannover Week " ++ natDigits weekNum ++ str "*\n", ms, [],
       format_radar_section nowYear data.big_events_radar]))

/-- The Telegram length ceiling of `format_message`: over-long messages are
cut at `ceiling - 20` characters and the fixed marker is appended. -/
def truncateMessage (message : List Char) : List Char :=
  if TELEGRAM_MESSAGE_MAX_LENGTH < message.length then
    message.take (TELEGRAM_MESSAGE_MAX_LENGTH - 20) ++ truncMarker
  else message

/-- `format_message` from `kinoweek/notifier.py`: compose, then enforce the
length ceiling. -/
def format_message (weekNum nowYear : Nat) (data : CategorizedResult) :
    Except Unit (List Char) :=
  (composeMessage weekNum nowYear data).map truncateMessage

/-- The header prefix of the composed message, after the `*`. -/
def c9Header : List Char := str "Hannover Week "

/-- The fixed remainder of the composed empty-result message (everything
after the week number, except the final underscore). -/
def c9Mid : List Char :=
  str "*\n\n*Movies (This Week)*\n_No OV movies this week_\n\n*On The Radar*\n_No upcoming events"

/-- The composed message for an empty result set, as a function of the week
number. -/
def composedEmpty (w : Nat) : List Char :=
  '*' :: ((c9Header ++ natDigits w ++ c9Mid) ++ ['_'])

/-- The empty categorized result. -/
def emptyData : CategorizedResult :=
  { movies_this_week := [], big_events_radar := [] }

/-- A 4200-character title, long enough to push the message past the
Telegram ceiling. -/
def c8T : List Char := List.replicate 4200 'x'

/-- A radar event with an arbitrary (possibly very long) title. -/
def c8EventT (t : List Char) : Event :=
  { title := t, date := ⟨2025, 11, 22, 20, 0, 0⟩, venue := str "ZAG Arena",
    url := str "u", category := .radar }

/-- No movies, one radar event with the given title. -/
def c8DataT (t : List Char) : CategorizedResult :=
  { movies_this_week := [], big_events_radar := [c8EventT t] }

/-- The composed message for `c8DataT t`, written with exactly the
associativity the composition produces. -/
def c8Joined (t : List Char) : List Char :=
  str "*Hannover Week " ++ natDigits 47 ++ str "*\n" ++ str "\n" ++
    (str "*Movies (This Week)*\n_No OV movies this week_" ++ str "\n" ++
      (([] : List Char) ++ str "\n" ++
        (str "*On The Radar*" ++ str "\n" ++
          ((str "  *" ++ t ++ str "*") ++ str "\n" ++
            (str "  " ++ format_concert_date 2025 (c8EventT t) ++
              str " | " ++
              (mgetD (c8EventT t).metadata (str "time")
                (.s (str "20:00"))).pyStr ++
              str " @ " ++ abbrevVenue (c8EventT t).venue)))))

end KinoWeek

open KinoWeek

namespace KinoWeek

/-- The empty pattern occurs in every string. -/
theorem containsSub_nil (hay : List Char) : containsSub hay [] = true := by
  cases hay with
  | nil => rfl
  | cons c t => simp [containsSub, List.isPrefixOf]

/-- An occurrence in `b` is an occurrence in `a ++ b`. -/
theorem containsSub_append_right (a b pat : List Char)
    (h : containsSub b pat = true) : containsSub (a ++ b) pat = true := by
  induction a with
  | nil => simpa using h
  | cons c t ih =>
    rw [List.cons_append, containsSub]
    simp only [Bool.or_eq_true]
    exact Or.inr ih

/-- A pattern is an occurrence of itself, so it occurs in `pat ++ b`. -/
theorem containsSub_self_append (pat b : List Char) :
    containsSub (pat ++ b) pat = true := by
  cases pat with
  | nil => exact containsSub_nil b
  | cons p ps =>
    rw [List.cons_append, containsSub]
    simp only [Bool.or_eq_true]
    exact Or.inl (List.isPrefixOf_iff_prefix.mpr
      (List.cons_prefix_cons.mpr ⟨rfl, List.prefix_append ps b⟩))

/-- An occurrence in `a` is an occurrence in `a ++ b`. -/
theorem containsSub_append_left (a b pat : List Char)
    (h : containsSub a pat = true) : containsSub (a ++ b) pat = true := by
  induction a with
  | nil =>
    have : pat = [] := by
      cases pat with
      | nil => rfl
      | cons p ps => simp [containsSub, List.isEmpty] at h
    subst this
    exact containsSub_nil b
  | cons c t ih =>
    rw [containsSub] at h
    simp only [Bool.or_eq_true] at h
    rw [List.cons_append, containsSub]
    simp only [Bool.or_eq_true]
    rcases h with h | h
    · exact Or.inl (List.isPrefixOf_iff_prefix.mpr
        ((List.isPrefixOf_iff_prefix.mp h).trans
          (by simp)))
    · exact Or.inr (ih h)

/-- Lexicographic order is reflexive. -/
theorem lexLe_refl {α : Type} [LinearOrder α] : ∀ l : List α, lexLe l l = true
  | [] => rfl
  | a :: as => by rw [lexLe, if_pos rfl]; exact lexLe_refl as

/-- Lexicographic order is total. -/
theorem lexLe_total {α : Type} [LinearOrder α] :
    ∀ a b : List α, (lexLe a b || lexLe b a) = true
  | [], _ => by simp [lexLe]
  | _ :: _, [] => by simp [lexLe]
  | a :: as, b :: bs => by
    rcases lt_trichotomy a b with h | h | h
    · rw [lexLe, if_neg (ne_of_lt h)]
      simp [h]
    · subst h
      rw [lexLe, if_pos rfl, lexLe, if_pos rfl]
      exact lexLe_total as bs
    · rw [lexLe, if_neg (ne_of_gt h), lexLe, if_neg (ne_of_lt h)]
      simp [h]

/-- Lexicographic order is transitive. -/
theorem lexLe_trans {α : Type} [LinearOrder α] :
    ∀ a b c : List α, lexLe a b = true → lexLe b c = true → lexLe a c = true
  | [], _, _, _, _ => rfl
  | _ :: _, [], _, hab, _ => by simp [lexLe] at hab
  | _ :: _, _ :: _, [], _, hbc => by simp [lexLe] at hbc
  | a :: as, b :: bs, c :: cs, hab, hbc => by
    rw [lexLe] at hab hbc ⊢
    by_cases h1 : a = b
    · subst h1
      rw [if_pos rfl] at hab
      by_cases h2 : a = c
      · subst h2
        rw [if_pos rfl] at hbc ⊢
        exact lexLe_trans as bs cs hab hbc
      · rw [if_neg h2] at hbc ⊢
        exact hbc
    · rw [if_neg h1] at hab
      have hlt1 : a < b := of_decide_eq_true hab
      by_cases h2 : b = c
      · subst h2
        rw [if_neg h1]
        exact hab
      · rw [if_neg h2] at hbc
        have hlt2 : b < c := of_decide_eq_true hbc
        have hac : a < c := lt_trans hlt1 hlt2
        rw [if_neg (ne_of_lt hac)]
        exact decide_eq_true hac

/-- The aggregation loop computes exactly the movie / non-movie filters of
the concatenated per-source results. -/
theorem foldl_processSource :
    ∀ (sources : List Source) (ms rs : List Event),
    sources.foldl processSource (ms, rs) =
      (ms ++ (flatFetch sources).filter (fun e => e.category == .movie),
       rs ++ (flatFetch sources).filter (fun e => !(e.category == .movie)))
  | [], ms, rs => by simp [flatFetch]
  | s :: rest, ms, rs => by
    rw [List.foldl_cons, flatFetch]
    by_cases he : s.enabled = false
    · rw [processSource, if_pos he, if_pos he]
      rw [foldl_processSource rest ms rs]
      simp
    · rw [processSource, if_neg he, if_neg he]
      match hf : s.fetchResult with
      | .error _ =>
        rw [foldl_processSource rest ms rs]
        simp
      | .ok events =>
        rw [foldl_processSource rest _ _]
        simp [List.append_assoc]

/-- Stability of a total, transitive Boolean sort: filtering the sorted list
by a predicate whose satisfying elements are pairwise `le`-comparable gives
the same list as filtering the input. -/
theorem filter_mergeSort_stable {α : Type} (le : α → α → Bool)
    (trans : ∀ a b c, le a b = true → le b c = true → le a c = true)
    (total : ∀ a b, (le a b || le b a) = true)
    (l : List α) (p : α → Bool)
    (hp : ∀ a b, p a = true → p b = true → le a b = true) :
    (l.mergeSort le).filter p = l.filter p := by
  have hsub : List.Sublist (l.filter p) l := List.filter_sublist l
  have hpair : (l.filter p).Pairwise (fun a b => le a b = true) :=
    List.pairwise_of_forall_mem_list (fun a ha b hb =>
      hp a b (List.of_mem_filter ha) (List.of_mem_filter hb))
  have hsub2 : List.Sublist (l.filter p) (l.mergeSort le) :=
    List.sublist_mergeSort trans total hpair hsub
  have hsub3 : List.Sublist (l.filter p) ((l.mergeSort le).filter p) := by
    have h1 := hsub2.filter p
    rw [List.filter_filter] at h1
    simpa using h1
  have hlen : ((l.mergeSort le).filter p).length = (l.filter p).length :=
    ((List.mergeSort_perm l le).filter p).length_eq
  exact (hsub3.eq_of_length hlen.symm).symm

/-- `dateLe` is transitive. -/
theorem dateLe_trans (a b c : Event) (hab : dateLe a b = true)
    (hbc : dateLe b c = true) : dateLe a c = true :=
  lexLe_trans _ _ _ hab hbc

/-- `dateLe` is total. -/
theorem dateLe_total (a b : Event) : (dateLe a b || dateLe b a) = true :=
  lexLe_total _ _

/-- The movies bucket of `fetch_all_events`, unfolded. -/
theorem fetch_all_events_movies (sources : List Source) (today : PyDateTime) :
    (fetch_all_events sources today).movies_this_week =
      (((flatFetch sources).filter (fun e => e.category == .movie)).filter
        (fun m => Event.is_this_week today m)).mergeSort dateLe := by
  simp [fetch_all_events, foldl_processSource sources [] []]

/-- The radar bucket of `fetch_all_events`, unfolded. -/
theorem fetch_all_events_radar (sources : List Source) (today : PyDateTime) :
    (fetch_all_events sources today).big_events_radar =
      (((flatFetch sources).filter (fun e => !(e.category == .movie))).filter
        (fun r => PyDateTime.ltb (addDays 7 today) r.date)).mergeSort dateLe := by
  simp [fetch_all_events, foldl_processSource sources [] []]

/-- Merge sort of a two-element list. -/
theorem mergeSort_pair {α : Type} (le : α → α → Bool) (a b : α) :
    List.mergeSort [a, b] le = if le a b then [a, b] else [b, a] := by
  rw [List.mergeSort]
  simp only [List.splitInTwo, List.splitAt_eq]
  by_cases h : le a b <;> simp [h, List.merge]

/-- Inversion for a successful `Except` bind. -/
theorem exceptBind_ok {ε α β : Type} (x : Except ε α) (f : α → Except ε β)
    (b : β) (h : (x >>= f) = .ok b) : ∃ a, x = .ok a ∧ f a = .ok b := by
  cases x with
  | error e => simp [Bind.bind, Except.bind] at h
  | ok a => exact ⟨a, rfl, by simpa [Bind.bind, Except.bind] using h⟩

/-- A seeded group starts with no showtimes (the dataclass default). -/
theorem seedGroupedMovie?_showtimes (e : Event) (g : GroupedMovie)
    (h : seedGroupedMovie? e = some g) : g.showtimes = [] := by
  simp only [seedGroupedMovie?, bind, Option.bind_eq_some,
    Option.some.injEq] at h
  obtain ⟨y, -, d, -, r, -, ge, -, c, -, hg⟩ := h
  subst hg
  rfl

/-- Membership in an updated association list. -/
theorem mem_updateAssoc {films : List (List Char × GroupedMovie)}
    {k : List Char} {f : GroupedMovie → GroupedMovie}
    {p : List Char × GroupedMovie} (h : p ∈ updateAssoc films k f) :
    ∃ q ∈ films, (q.1 = k ∧ p = (q.1, f q.2)) ∨ (q.1 ≠ k ∧ p = q) := by
  rw [updateAssoc] at h
  obtain ⟨q, hq, he⟩ := List.mem_map.mp h
  refine ⟨q, hq, ?_⟩
  by_cases hk : q.1 = k
  · left; rw [if_pos hk] at he; exact ⟨hk, he.symm⟩
  · right; rw [if_neg hk] at he; exact ⟨hk, he.symm⟩

/-- One grouping step preserves the invariant that every stored group has at
least one showtime (a new group immediately receives this event's
showtime). -/
theorem groupStep_inv {films films' : List (List Char × GroupedMovie)}
    {e : Event} (h : groupStep films e = .ok films')
    (inv : ∀ p ∈ films, p.2.showtimes ≠ []) :
    ∀ p ∈ films', p.2.showtimes ≠ [] := by
  intro p hp
  rw [groupStep] at h
  split at h
  · cases h
    obtain ⟨q, hq, hcase⟩ := mem_updateAssoc hp
    rcases hcase with ⟨-, rfl⟩ | ⟨-, rfl⟩
    · simp
    · exact inv _ hq
  · split at h
    · cases h
    · rename_i g hseed
      cases h
      obtain ⟨q, hq, hcase⟩ := mem_updateAssoc hp
      rcases List.mem_append.mp hq with hqf | hqn
      · rcases hcase with ⟨-, rfl⟩ | ⟨-, rfl⟩
        · simp
        · exact inv _ hqf
      · have hq' : q = (filmKey e, g) := List.mem_singleton.mp hqn
        rcases hcase with ⟨-, rfl⟩ | ⟨hne, rfl⟩
        · simp
        · exact absurd (by rw [hq']) hne

/-- The grouping fold preserves the nonempty-showtimes invariant. -/
theorem foldlM_groupStep_inv :
    ∀ (movies : List Event) (films films' : List (List Char × GroupedMovie)),
    List.foldlM groupStep films movies = .ok films' →
    (∀ p ∈ films, p.2.showtimes ≠ []) →
    ∀ p ∈ films', p.2.showtimes ≠ []
  | [], films, films', h, inv => by
    rw [List.foldlM_nil] at h
    cases h
    exact inv
  | e :: rest, films, films', h, inv => by
    rw [List.foldlM_cons] at h
    obtain ⟨f2, hstep, hrest⟩ := exceptBind_ok _ _ _ h
    exact foldlM_groupStep_inv rest f2 films' hrest (groupStep_inv hstep inv)

/-- Unfolding one step of the grouping fold. -/
theorem foldlM_groupStep_cons (films f1 : List (List Char × GroupedMovie))
    (e : Event) (rest : List Event) (h : groupStep films e = .ok f1) :
    List.foldlM groupStep films (e :: rest) =
      List.foldlM groupStep f1 rest := by
  rw [List.foldlM_cons, h]
  rfl

/-- `group_movies_by_film` in terms of a successful fold. -/
theorem group_movies_eq (movies : List Event)
    (films : List (List Char × GroupedMovie))
    (h : List.foldlM groupStep [] movies = .ok films) :
    group_movies_by_film movies =
      .ok ((films.map (fun p => p.2)).mergeSort gmLe) := by
  rw [group_movies_by_film, h]
  rfl

/-- `gmLe` is transitive. -/
theorem gmLe_trans (a b c : GroupedMovie) (hab : gmLe a b = true)
    (hbc : gmLe b c = true) : gmLe a c = true :=
  lexLe_trans _ _ _ hab hbc

/-- `gmLe` is total. -/
theorem gmLe_total (a b : GroupedMovie) : (gmLe a b || gmLe b a) = true :=
  lexLe_total _ _

/-- A number below 100 prints with at most two digits. -/
theorem natDigits_length_le_two (n : Nat) (h : n < 100) :
    (natDigits n).length ≤ 2 := by
  rw [natDigits]
  by_cases h1 : n < 10
  · rw [natDigitsAux, if_pos h1]
    simp
  · rw [natDigitsAux, if_neg h1]
    obtain ⟨m, rfl⟩ : ∃ m, n = m + 1 := ⟨n - 1, by omega⟩
    rw [natDigitsAux, if_pos (by omega : (m + 1) / 10 < 10)]
    simp

/-- Stripping a string that starts and ends with non-whitespace characters
is the identity. -/
theorem pyStrip_wrap (a : Char) (mid : List Char) (b : Char)
    (ha : pyIsSpace a = false) (hb : pyIsSpace b = false) :
    pyStrip (a :: (mid ++ [b])) = a :: (mid ++ [b]) := by
  rw [pyStrip, List.dropWhile_cons, ha]
  simp only [Bool.false_eq_true, if_false]
  rw [List.reverse_cons, List.reverse_append]
  simp only [List.reverse_cons, List.reverse_nil, List.nil_append,
    List.cons_append]
  rw [List.dropWhile_cons, hb]
  simp only [Bool.false_eq_true, if_false]
  simp [List.reverse_append, List.reverse_cons]

/-- A substring of the tail is a substring. -/
theorem containsSub_cons (c : Char) (t pat : List Char)
    (h : containsSub t pat = true) : containsSub (c :: t) pat = true := by
  rw [containsSub]
  simp only [Bool.or_eq_true]
  exact Or.inr h

/-- Composing the message for an empty result set. -/
theorem composeMessage_empty (w y : Nat) :
    composeMessage w y emptyData = .ok (composedEmpty w) := by
  rw [composeMessage]
  rw [show format_movies_section (emptyData.movies_this_week) =
      .ok (str "*Movies (This Week)*\n_No OV movies this week_") from rfl]
  simp only [Except.map]
  have hjoin : joinSep (str "\n")
      [str "*Hannover Week " ++ natDigits w ++ str "*\n",
       str "*Movies (This Week)*\n_No OV movies this week_", [],
       format_radar_section y emptyData.big_events_radar]
      = composedEmpty w := by
    rw [show format_radar_section y emptyData.big_events_radar =
        str "*On The Radar*\n_No upcoming events_" from rfl]
    simp only [joinSep]
    rw [composedEmpty, show (str "*Hannover Week ") = '*' :: c9Header from rfl]
    simp only [List.cons_append, List.append_assoc, List.nil_append]
    exact congrArg (fun t => '*' :: t)
      (congrArg (fun t => c9Header ++ t)
        (congrArg (fun t => natDigits w ++ t) (by rfl)))
  rw [hjoin, show pyStrip (composedEmpty w) = composedEmpty w from by
    rw [composedEmpty]
    exact pyStrip_wrap '*' _ '_' (by decide) (by decide)]

/-- Stripping is the identity when the first and last characters are
non-whitespace. -/
theorem pyStrip_of_head_getLast (s : List Char) (c1 c2 : Char)
    (h1 : s.head? = some c1) (h2 : s.getLast? = some c2)
    (hc1 : pyIsSpace c1 = false) (hc2 : pyIsSpace c2 = false) :
    pyStrip s = s := by
  rw [pyStrip]
  have hd : s.dropWhile pyIsSpace = s := by
    cases s with
    | nil => rfl
    | cons a tl =>
      have ha : a = c1 := by simpa using h1
      subst ha
      rw [List.dropWhile_cons, hc1]
      simp
  rw [hd]
  have hrev : s.reverse.dropWhile pyIsSpace = s.reverse := by
    cases hr : s.reverse with
    | nil => rfl
    | cons a tl =>
      have ha : a = c2 := by
        have hh := List.head?_reverse s
        rw [hr, h2] at hh
        simpa using hh
      subst ha
      rw [List.dropWhile_cons, hc2]
      simp
  rw [hrev, List.reverse_reverse]

/-- The composed `c8DataT` message starts with `*` and ends with the `a` of
"ZAG Arena", so stripping it is the identity. -/
theorem c8Joined_strip (t : List Char) :
    pyStrip (c8Joined t) = c8Joined t := by
  apply pyStrip_of_head_getLast _ '*' 'a'
  · rfl
  · rw [c8Joined]
    simp only [List.getLast?_append]
    rw [show (abbrevVenue (c8EventT t).venue).getLast? = some 'a' from
      by rfl]
    simp
  · decide
  · decide

/-- Composing the message for `c8DataT t`. -/
theorem c8_compose (t : List Char) :
    composeMessage 47 2025 (c8DataT t) = .ok (c8Joined t) := by
  rw [composeMessage]
  rw [show format_movies_section ((c8DataT t).movies_this_week) =
      .ok (str "*Movies (This Week)*\n_No OV movies this week_") from rfl]
  simp only [Except.map]
  congr 1
  exact c8Joined_strip t

/-- With the 4200-character title, the composed message exceeds the
ceiling. -/
theorem c8_big : TELEGRAM_MESSAGE_MAX_LENGTH < (c8Joined c8T).length := by
  have hT : TELEGRAM_MESSAGE_MAX_LENGTH = 4096 := rfl
  rw [hT, c8Joined]
  simp only [List.length_append, c8T, List.length_replicate]
  omega

end KinoWeek

/-- Claim C1, counterexample.  The label "Deutsch Untertitel" contains both
"Deutsch" and "Untertitel" (without a colon), so the claim as stated predicts
`isOriginalVersion = true`; the code tests for the substring "Untertitel:"
(with a colon) and returns `false` on this label. -/
theorem C1_counterexample :
    containsSub (str "Deutsch Untertitel") (str "Deutsch") = true ∧
    containsSub (str "Deutsch Untertitel") (str "Untertitel") = true ∧
    is_original_version (str "Deutsch Untertitel") = false := by
  refine ⟨by decide, by decide, by decide⟩

/-- Claim C1, amended: for a label containing "Deutsch", the result is `true`
iff the label also contains "Untertitel:" (with the trailing colon); any
non-empty label not containing "Deutsch" yields `true`; the empty label yields
`false`.  The four concrete examples of the claim all hold as stated. -/
theorem C1_amended (label : List Char) :
    is_original_version [] = false ∧
    is_original_version (str "Sprache: Deutsch") = false ∧
    is_original_version (str "Sprache: Deutsch, Untertitel: Englisch") = true ∧
    is_original_version (str "Sprache: Englisch") = true ∧
    (label ≠ [] →
      is_original_version label =
        (!containsSub label (str "Deutsch") ||
          containsSub label (str "Untertitel:"))) := by
  refine ⟨by decide, by decide, by decide, by decide, ?_⟩
  intro h
  rw [is_original_version, if_neg h]
  by_cases hd : containsSub label (str "Deutsch") = true
  · rw [if_pos hd, hd]
    simp
  · rw [if_neg hd]
    simp only [Bool.not_eq_true] at hd
    rw [hd]
    simp

/-- Claim C1, amended, witness: the amended rule evaluated at the concrete
label "Sprache: Japanisch". -/
theorem C1_amended_witness :
    is_original_version (str "Sprache: Japanisch") =
      (!containsSub (str "Sprache: Japanisch") (str "Deutsch") ||
        containsSub (str "Sprache: Japanisch") (str "Untertitel:")) :=
  (C1_amended (str "Sprache: Japanisch")).2.2.2.2 (by decide)

/-- Claim C2: in any run, every event in `movies_this_week` has category
movie and a date in the closed window `[today, today + 7 days]`; every event
in `big_events_radar` has a non-movie category and a date strictly beyond
`today + 7 days`; both buckets are sorted ascending by date; and a non-movie
event dated exactly `today + 7 days` appears in neither bucket. -/
theorem C2_bucket_invariants (sources : List Source) (today : PyDateTime) :
    (fetch_all_events sources today).movies_this_week.Pairwise
      (fun a b => dateLe a b = true) ∧
    (fetch_all_events sources today).big_events_radar.Pairwise
      (fun a b => dateLe a b = true) ∧
    (∀ e, e ∈ (fetch_all_events sources today).movies_this_week →
      e.category = .movie ∧ PyDateTime.leb today e.date = true ∧
      PyDateTime.leb e.date (addDays 7 today) = true) ∧
    (∀ e, e ∈ (fetch_all_events sources today).big_events_radar →
      e.category ≠ .movie ∧
      PyDateTime.ltb (addDays 7 today) e.date = true) ∧
    (∀ e, e.category ≠ .movie → e.date = addDays 7 today →
      e ∉ (fetch_all_events sources today).movies_this_week ∧
      e ∉ (fetch_all_events sources today).big_events_radar) := by
  have hm := fetch_all_events_movies sources today
  have hr := fetch_all_events_radar sources today
  have hmem_m : ∀ e, e ∈ (fetch_all_events sources today).movies_this_week →
      e.category = .movie ∧ PyDateTime.leb today e.date = true ∧
      PyDateTime.leb e.date (addDays 7 today) = true := by
    intro e he
    rw [hm] at he
    have h1 := List.mem_mergeSort.mp he
    have h2 := (List.mem_filter.mp h1).2
    have h3 := (List.mem_filter.mp (List.mem_filter.mp h1).1).2
    rw [Event.is_this_week, Bool.and_eq_true] at h2
    exact ⟨by simpa using h3, h2.1, h2.2⟩
  have hmem_r : ∀ e, e ∈ (fetch_all_events sources today).big_events_radar →
      e.category ≠ .movie ∧
      PyDateTime.ltb (addDays 7 today) e.date = true := by
    intro e he
    rw [hr] at he
    have h1 := List.mem_mergeSort.mp he
    have h2 := (List.mem_filter.mp h1).2
    have h3 := (List.mem_filter.mp (List.mem_filter.mp h1).1).2
    refine ⟨?_, h2⟩
    simpa using h3
  refine ⟨?_, ?_, hmem_m, hmem_r, ?_⟩
  · rw [hm]
    exact List.sorted_mergeSort dateLe_trans dateLe_total _
  · rw [hr]
    exact List.sorted_mergeSort dateLe_trans dateLe_total _
  · intro e hcat hdate
    constructor
    · intro he
      exact hcat (hmem_m e he).1
    · intro he
      have h := (hmem_r e he).2
      rw [hdate, PyDateTime.ltb, PyDateTime.leb, lexLe_refl] at h
      simp at h

/-- Claim C2, witness: with one source and a fixed clock, the in-window movie
satisfies the movie-bucket invariants, and the non-movie event dated exactly
`today + 7 days` lands in neither bucket. -/
theorem C2_bucket_invariants_witness :
    (wMovie.category = .movie ∧ PyDateTime.leb wToday wMovie.date = true ∧
      PyDateTime.leb wMovie.date (addDays 7 wToday) = true) ∧
    (wBoundary ∉ (fetch_all_events [wSource] wToday).movies_this_week ∧
      wBoundary ∉ (fetch_all_events [wSource] wToday).big_events_radar) := by
  have hmov : (fetch_all_events [wSource] wToday).movies_this_week
      = [wMovie] := by
    rw [fetch_all_events_movies]
    rw [show (((flatFetch [wSource]).filter
        (fun e => e.category == EventCategory.movie)).filter
        (fun m => Event.is_this_week wToday m)) = [wMovie] from by decide]
    simp
  refine ⟨(C2_bucket_invariants [wSource] wToday).2.2.1 wMovie ?_,
    (C2_bucket_invariants [wSource] wToday).2.2.2.2 wBoundary (by decide)
      (by decide)⟩
  rw [hmov]
  exact List.mem_singleton.mpr rfl

/-- Claim C4: a source whose `fetch()` raises contributes nothing and does
not disturb the other sources: the aggregation over any registry containing
it equals the aggregation over the registry with it removed.  (The embedded
`fetch_all_events` is a total function: the per-source exception is absorbed
by the loop, so the aggregator itself never raises.) -/
theorem C4_failing_source_dropped (pre post : List Source) (bad : Source)
    (today : PyDateTime) (h : bad.fetchResult = .error ()) :
    fetch_all_events (pre ++ bad :: post) today =
      fetch_all_events (pre ++ post) today := by
  have hskip : ∀ acc, processSource acc bad = acc := by
    intro acc
    rw [processSource]
    by_cases he : bad.enabled = false
    · rw [if_pos he]
    · rw [if_neg he, h]
  have hfold : (pre ++ bad :: post).foldl processSource ([], []) =
      (pre ++ post).foldl processSource ([], []) := by
    rw [List.foldl_append, List.foldl_cons, hskip, ← List.foldl_append]
  simp only [fetch_all_events, hfold]

/-- Claim C4, witness: a registry of three sources in which exactly the
middle one raises yields the same buckets as the registry of the two healthy
sources. -/
theorem C4_failing_source_dropped_witness :
    fetch_all_events [wSource, wBad, wSource2] wToday =
      fetch_all_events [wSource, wSource2] wToday :=
  C4_failing_source_dropped [wSource] [wSource2] wBad wToday rfl

/-- Claim C10: each output bucket is a stable sort of the concatenated
per-source results: filtering a bucket to the events of any fixed date gives
exactly the same sequence as filtering the concatenated fetch results (source
iteration order first, fetch order within a source), so equal-date events
keep their fetch order. -/
theorem C10_bucket_sort_stable (sources : List Source) (today d : PyDateTime) :
    (fetch_all_events sources today).movies_this_week.filter
        (fun e => decide (e.date = d)) =
      (((flatFetch sources).filter (fun e => e.category == .movie)).filter
        (fun m => Event.is_this_week today m)).filter
        (fun e => decide (e.date = d)) ∧
    (fetch_all_events sources today).big_events_radar.filter
        (fun e => decide (e.date = d)) =
      (((flatFetch sources).filter (fun e => !(e.category == .movie))).filter
        (fun r => PyDateTime.ltb (addDays 7 today) r.date)).filter
        (fun e => decide (e.date = d)) := by
  have hp : ∀ a b : Event, decide (a.date = d) = true →
      decide (b.date = d) = true → dateLe a b = true := by
    intro a b ha hb
    have ha' : a.date = d := of_decide_eq_true ha
    have hb' : b.date = d := of_decide_eq_true hb
    rw [dateLe, ha', hb', PyDateTime.leb, lexLe_refl]
  constructor
  · rw [fetch_all_events_movies]
    exact filter_mergeSort_stable dateLe dateLe_trans dateLe_total _ _ hp
  · rw [fetch_all_events_radar]
    exact filter_mergeSort_stable dateLe dateLe_trans dateLe_total _ _ hp

/-- Claim C7: an event's category is always one of the three declared
literals (the `Literal` annotation is a closed type, so no other value can be
constructed), and an `Event` constructed without a metadata argument carries
the empty mapping (`field(default_factory=dict)`). -/
theorem C7_event_invariants (t : List Char) (d : PyDateTime) (v u : List Char)
    (c : EventCategory) (e : Event) :
    (c = .movie ∨ c = .culture ∨ c = .radar) ∧
    (e.category = .movie ∨ e.category = .culture ∨ e.category = .radar) ∧
    ({ title := t, date := d, venue := v, url := u,
       category := c : Event }).metadata = [] := by
  refine ⟨?_, ?_, rfl⟩
  · cases c
    · exact Or.inl rfl
    · exact Or.inr (Or.inl rfl)
    · exact Or.inr (Or.inr rfl)
  · rcases e with ⟨_, _, _, _, c', _⟩
    cases c'
    · exact Or.inl rfl
    · exact Or.inr (Or.inl rfl)
    · exact Or.inr (Or.inr rfl)

/-- Claim C3, counterexample: "20.11.2025" contains a DD.MM.YYYY substring
and no hh:mm substring, yet `parse_german_date` returns midnight, not 20:00:
the exact format `"%d.%m.%Y"` parses the whole string first, and `strptime`
defaults unmentioned fields to zero; the 20:00 default lives only in the
regex fallback. -/
theorem C3_counterexample :
    searchDate (str "20.11.2025") = some (20, 11, 2025) ∧
    searchTime (str "20.11.2025") = none ∧
    parse_german_date (str "20.11.2025") =
      .ok (some ⟨2025, 11, 20, 0, 0, 0⟩) := by
  refine ⟨by rfl, by rfl, by rfl⟩

/-- Claim C3, amended: "20.11.2025" parses to midnight on 2025-11-20 (not
20:00); "Fr, 22.11.2025 19:30" parses to 2025-11-22 19:30; "not a date"
yields none; and for every input that fails all four exact `strptime`
formats and contains no hh:mm time substring, any timestamp the function
returns has time component 20:00. -/
theorem C3_amended (s : List Char) :
    parse_german_date (str "20.11.2025") =
      .ok (some ⟨2025, 11, 20, 0, 0, 0⟩) ∧
    parse_german_date (str "Fr, 22.11.2025 19:30") =
      .ok (some ⟨2025, 11, 22, 19, 30, 0⟩) ∧
    parse_german_date (str "not a date") = .ok none ∧
    (strptimeChain (pyStrip s) = none → searchTime s = none →
      ∀ dt, parse_german_date s = .ok (some dt) →
        dt.hour = 20 ∧ dt.minute = 0) := by
  refine ⟨by rfl, by rfl, by rfl, ?_⟩
  intro h1 h2 dt h3
  cases hsd : searchDate s with
  | none =>
    have heq : parse_german_date s = .ok none := by
      unfold parse_german_date
      rw [h1, hsd]
    rw [heq] at h3
    simp at h3
  | some v =>
    obtain ⟨d, mo, y⟩ := v
    have heq : parse_german_date s = (mkDatetimeChecked y mo d 20 0).map some := by
      unfold parse_german_date
      rw [h1, hsd, h2]
    rw [heq, mkDatetimeChecked] at h3
    by_cases hv : (1 ≤ y ∧ y ≤ 9999 ∧ 1 ≤ mo ∧ mo ≤ 12 ∧ 1 ≤ d ∧
        d ≤ daysInMonth y mo ∧ (20 : Nat) ≤ 23 ∧ (0 : Nat) ≤ 59)
    · rw [if_pos hv] at h3
      obtain rfl : (⟨y, mo, d, 20, 0, 0⟩ : PyDateTime) = dt := by
        simpa [Except.map] using h3
      exact ⟨rfl, rfl⟩
    · rw [if_neg hv] at h3
      simp [Except.map] at h3

/-- Claim C3, amended, witness: "Fr, 22.11.2025 abc" fails all four exact
formats, contains no time substring, and parses to 2025-11-22 20:00. -/
theorem C3_amended_witness :
    strptimeChain (pyStrip (str "Fr, 22.11.2025 abc")) = none ∧
    searchTime (str "Fr, 22.11.2025 abc") = none ∧
    parse_german_date (str "Fr, 22.11.2025 abc") =
      .ok (some ⟨2025, 11, 22, 20, 0, 0⟩) ∧
    ((⟨2025, 11, 22, 20, 0, 0⟩ : PyDateTime).hour = 20 ∧
      (⟨2025, 11, 22, 20, 0, 0⟩ : PyDateTime).minute = 0) :=
  ⟨by rfl, by rfl, by rfl,
    (C3_amended (str "Fr, 22.11.2025 abc")).2.2.2 (by rfl) (by rfl)
      ⟨2025, 11, 22, 20, 0, 0⟩ (by rfl)⟩

/-- Claim C6: the claim says both normalizers are total and never raise, and
the function docstrings promise "Parsed datetime or None if parsing fails";
but on "31.02.2025" the fallback of `parse_german_date` calls
`datetime(2025, 2, 31, 20, 0)`, which raises an uncaught `ValueError`
(embedded `.error ()`), and `parse_venue_date("99NOV2025")` likewise raises
from `datetime(2025, 11, 99, 20, 0)`.  Inputs with no recognizable date do
yield none. -/
theorem C6_parser_totality_violated :
    parse_german_date (str "31.02.2025") = .error () ∧
    parse_venue_date (str "99NOV2025") = .error () ∧
    parse_german_date (str "not a date") = .ok none ∧
    parse_venue_date (str "gibberish") = .ok none := by
  refine ⟨by rfl, by rfl, by rfl, by rfl⟩

/-- Claim C5, counterexample: film "A" has showtimes 2025-01-10 then
2025-01-01 (arrival order) and film "B" has 2025-01-05; the code sorts by
each film's FIRST stored showtime (`showtimes[0].date`), so "B" (key
2025-01-05) is listed before "A" (key 2025-01-10) even though "A" has the
earliest showtime 2025-01-01 of all — the output is not sorted by earliest
showtime as the claim states. -/
theorem C5_counterexample :
    group_movies_by_film [cA1, cA2, cB] = .ok [cGB, cGA] ∧
    gmKey cGA = str "2025-01-10" ∧
    (mkShowtime cA2).date = str "2025-01-01" ∧
    gmKey cGB = str "2025-01-05" ∧
    lexLe (str "2025-01-01") (str "2025-01-05") = true := by
  refine ⟨?_, by rfl, by rfl, by rfl, by decide⟩
  have hfold : List.foldlM groupStep [] [cA1, cA2, cB] =
      .ok [(filmKey cA1, cGA), (filmKey cB, cGB)] := by rfl
  rw [group_movies_eq _ _ hfold]
  rw [show ([(filmKey cA1, cGA), (filmKey cB, cGB)].map (fun p => p.2))
      = [cGA, cGB] from rfl]
  rw [mergeSort_pair]
  rw [if_neg (by decide : ¬ (gmLe cGA cGB = true))]

/-- Claim C5, amended: two events with the same `(title, metadata year)` key
collapse into exactly one GroupedFilm whose showtimes are the two events'
showtimes appended in arrival order (not deduplicated); every GroupedFilm in
any successful output has at least one showtime; and the output is sorted
ascending by each film's FIRST stored showtime's date string (not by its
earliest showtime, which is what the counterexample refutes). -/
theorem C5_amended (e1 e2 : Event) (g1 : GroupedMovie) (movies : List Event)
    (gs : List GroupedMovie) :
    (filmKey e1 = filmKey e2 → seedGroupedMovie? e1 = some g1 →
      group_movies_by_film [e1, e2] =
        .ok [{ g1 with showtimes := [mkShowtime e1, mkShowtime e2] }]) ∧
    (group_movies_by_film movies = .ok gs →
      (∀ g ∈ gs, g.showtimes ≠ []) ∧
      gs.Pairwise (fun a b => gmLe a b = true)) := by
  constructor
  · intro hkey hseed
    have hg1 : g1.showtimes = [] := seedGroupedMovie?_showtimes e1 g1 hseed
    have h1 : groupStep [] e1 =
        .ok [(filmKey e1, { g1 with showtimes := [mkShowtime e1] })] := by
      rw [groupStep, hseed]
      simp [updateAssoc, hg1]
    have h2 : groupStep
        [(filmKey e1, { g1 with showtimes := [mkShowtime e1] })] e2 =
        .ok [(filmKey e1,
          { g1 with showtimes := [mkShowtime e1, mkShowtime e2] })] := by
      rw [groupStep, ← hkey]
      simp [List.lookup_cons_self, updateAssoc]
    have hfold : List.foldlM groupStep [] [e1, e2] =
        .ok [(filmKey e1,
          { g1 with showtimes := [mkShowtime e1, mkShowtime e2] })] := by
      rw [foldlM_groupStep_cons _ _ _ _ h1, foldlM_groupStep_cons _ _ _ _ h2,
        List.foldlM_nil]
      rfl
    rw [group_movies_eq _ _ hfold]
    simp
  · intro hok
    rw [group_movies_by_film] at hok
    obtain ⟨films, hfold, hpure⟩ := exceptBind_ok _ _ _ hok
    have h2 : (Except.ok ((films.map (fun p => p.2)).mergeSort gmLe)
        : Except Unit (List GroupedMovie)) = .ok gs := hpure
    have hgs : gs = (films.map (fun p => p.2)).mergeSort gmLe := by
      injection h2 with h3
      exact h3.symm
    constructor
    · intro g hg
      rw [hgs] at hg
      obtain ⟨p, hp, rfl⟩ := List.mem_map.mp (List.mem_mergeSort.mp hg)
      exact foldlM_groupStep_inv movies [] films hfold (by simp) p hp
    · rw [hgs]
      exact List.sorted_mergeSort gmLe_trans gmLe_total _

/-- Claim C5, amended, witness: the two "A" events collapse into one group
with both showtimes in arrival order, and that output satisfies the
invariant and sortedness facts. -/
theorem C5_amended_witness :
    group_movies_by_film [cA1, cA2] = .ok [cGA] ∧
    (∀ g ∈ [cGA], g.showtimes ≠ []) ∧
    ([cGA] : List GroupedMovie).Pairwise (fun a b => gmLe a b = true) := by
  have h1 := (C5_amended cA1 cA2 cG0 [cA1, cA2] [cGA]).1 (by rfl) (by rfl)
  have h2 := (C5_amended cA1 cA2 cG0 [cA1, cA2] [cGA]).2 h1
  exact ⟨h1, h2⟩

/-- Claim C8: whenever the composed notification message exceeds the
4096-character Telegram ceiling, `format_message` returns the composed text
truncated at `4096 - 20` characters with the fixed "(truncated)" marker
appended, so the result is at most 4096 characters long and ends with the
marker; a composed message within the ceiling is returned unchanged. -/
theorem C8_message_truncation (w y : Nat) (data : CategorizedResult)
    (m : List Char) (h : composeMessage w y data = .ok m) :
    (TELEGRAM_MESSAGE_MAX_LENGTH < m.length →
      format_message w y data =
        .ok (m.take (TELEGRAM_MESSAGE_MAX_LENGTH - 20) ++ truncMarker) ∧
      (m.take (TELEGRAM_MESSAGE_MAX_LENGTH - 20) ++ truncMarker).length ≤
        TELEGRAM_MESSAGE_MAX_LENGTH ∧
      truncMarker <:+
        (m.take (TELEGRAM_MESSAGE_MAX_LENGTH - 20) ++ truncMarker)) ∧
    (m.length ≤ TELEGRAM_MESSAGE_MAX_LENGTH →
      format_message w y data = .ok m) := by
  have hfm : format_message w y data = .ok (truncateMessage m) := by
    rw [format_message, h]
    rfl
  constructor
  · intro hlen
    refine ⟨?_, ?_, ?_⟩
    · rw [hfm, truncateMessage, if_pos hlen]
    · rw [List.length_append, List.length_take,
        show truncMarker.length = 17 from by decide]
      have hT : TELEGRAM_MESSAGE_MAX_LENGTH = 4096 := rfl
      rw [hT] at hlen ⊢
      omega
    · exact ⟨m.take (TELEGRAM_MESSAGE_MAX_LENGTH - 20), rfl⟩
  · intro hlen
    rw [hfm, truncateMessage, if_neg (Nat.not_lt.mpr hlen)]

/-- Claim C8, witness: with one radar event carrying a 4200-character title
the composed message exceeds 4096 characters, and `format_message` returns
it truncated at `4096 - 20` characters with the marker appended. -/
theorem C8_message_truncation_witness :
    format_message 47 2025 (c8DataT c8T) =
      .ok ((c8Joined c8T).take (TELEGRAM_MESSAGE_MAX_LENGTH - 20) ++
        truncMarker) :=
  ((C8_message_truncation 47 2025 (c8DataT c8T) (c8Joined c8T)
    (c8_compose c8T)).1 c8_big).1

/-- Claim C9: with an empty movies list the movies section is exactly the
header plus the "_No OV movies this week_" placeholder; with an empty radar
list the radar section is exactly the header plus "_No upcoming events_";
the message formatted for an empty result set is never empty or blank; and
for any real ISO week number the full message contains both placeholder
lines. -/
theorem C9_empty_message (w y : Nat) :
    format_movies_section [] =
      .ok (str "*Movies (This Week)*\n_No OV movies this week_") ∧
    format_radar_section y [] =
      str "*On The Radar*\n_No upcoming events_" ∧
    (∀ res, format_message w y emptyData = .ok res →
      res ≠ [] ∧ res.any (fun c => !pyIsSpace c) = true) ∧
    (w < 100 →
      format_message w y emptyData = .ok (composedEmpty w) ∧
      containsSub (composedEmpty w) (str "_No OV movies this week_") = true ∧
      containsSub (composedEmpty w) (str "_No upcoming events_") = true) := by
  refine ⟨by rfl, by rfl, ?_, ?_⟩
  · intro res hres
    rw [format_message, composeMessage_empty] at hres
    simp only [Except.map] at hres
    have hres' : truncateMessage (composedEmpty w) = res := by
      injection hres
    subst hres'
    rw [truncateMessage]
    by_cases hl : TELEGRAM_MESSAGE_MAX_LENGTH < (composedEmpty w).length
    · rw [if_pos hl]
      constructor
      · intro hemp
        have hlen := congrArg List.length hemp
        rw [List.length_append,
          show truncMarker.length = 17 from by decide] at hlen
        simp at hlen
      · rw [List.any_append]
        rw [show truncMarker.any (fun c => !pyIsSpace c) = true from
          by decide]
        simp
    · rw [if_neg hl]
      constructor
      · rw [composedEmpty]
        simp
      · rw [composedEmpty, List.any_cons]
        rw [show (!pyIsSpace '*') = true from by decide]
        simp
  · intro hw
    have hlen : (composedEmpty w).length ≤ TELEGRAM_MESSAGE_MAX_LENGTH := by
      have hnd := natDigits_length_le_two w hw
      have hh : c9Header.length ≤ 20 := by decide
      have hm : c9Mid.length ≤ 100 := by decide
      have hT : TELEGRAM_MESSAGE_MAX_LENGTH = 4096 := rfl
      rw [hT, composedEmpty]
      simp only [List.length_cons, List.length_append, List.length_nil]
      omega
    refine ⟨?_, ?_, ?_⟩
    · rw [format_message, composeMessage_empty]
      simp only [Except.map]
      rw [truncateMessage, if_neg (Nat.not_lt.mpr hlen)]
    · rw [composedEmpty]
      apply containsSub_cons
      rw [List.append_assoc]
      apply containsSub_append_right
      decide
    · rw [composedEmpty]
      apply containsSub_cons
      rw [List.append_assoc]
      apply containsSub_append_right
      decide

/-- Claim C9, witness: the empty-result message for week 47 of 2025
contains both placeholders and is neither empty nor blank. -/
theorem C9_empty_message_witness :
    format_message 47 2025 emptyData = .ok (composedEmpty 47) ∧
    containsSub (composedEmpty 47) (str "_No OV movies this week_") = true ∧
    containsSub (composedEmpty 47) (str "_No upcoming events_") = true ∧
    composedEmpty 47 ≠ [] ∧
    (composedEmpty 47).any (fun c => !pyIsSpace c) = true := by
  have h4 := (C9_empty_message 47 2025).2.2.2 (by omega)
  have h3 := (C9_empty_message 47 2025).2.2.1 (composedEmpty 47) h4.1
  exact ⟨h4.1, h4.2.1, h4.2.2, h3.1, h3.2⟩
